import Mathlib

/-!
# Verification of the `evolve` rules engine

Shallow embedding of the game engine found in `src/evolve/game/models.py`
and `src/evolve/rules/models.py`, together with theorems settling the
frozen specification claims.

Conventions of the embedding:
* Django model rows become Lean structures; querysets become lists.
* Resources and sciences are identified by natural numbers, building kinds
  by their short string codes (`"mil"`, `"civ"`, `"bas"`, `"cpx"`, `"eco"`,
  `"sci"`, `"per"`), exactly the codes of `KINDS` in the rules models.
* Ring adjacency (`left_player` / `right_player`) is passed explicitly:
  a method reading its neighbours becomes a function taking them as
  arguments.
* Numeric constants that live in the absent `evolve/rules/constants.py`
  module (INITIAL_OPTIONS, TURN_COUNT, DEFAULT_TRADE_COST,
  SCIENCE_SCORE_PER_GROUP, MINIMUM_PLAYERS) are taken as explicit
  parameters of the definitions that need them.
* A Python function that can raise becomes `Option`/`Except`: `none` /
  `.error` is an uncaught exception (AssertionError, NameError,
  DoesNotExist), with the `.error` payload recording the state already
  persisted when the exception escapes.
-/

namespace Evolve

/-- A cost (or production/trade bag): a money amount plus `CostLine`
rows, each an `(amount, resource)` pair.  `Cost.to_list` of the source is
the `lines` field; the money component is kept separately, mirroring the
`'$'` key of `Cost.to_dict`. -/
structure Cost where
  money : Nat
  lines : List (Nat × Nat)
deriving DecidableEq

/-- An effect row (`evolve/rules/models.py`, class `Effect`), restricted to
the fields the game engine reads. -/
structure Effect where
  production : Option Cost
  score : Nat
  military : Nat
  sciences : List Nat
  trade : Option Cost
  left_trade : Bool
  right_trade : Bool
  kind_payed : Option String
  money_per_neighbor_building : Nat
  money_per_local_building : Nat
  money_per_local_special : Nat
  money_per_neighbor_special : Nat
  free_building : Bool
deriving DecidableEq

/-- The all-empty effect, used to build concrete instances. -/
def Effect.nil : Effect :=
  ⟨none, 0, 0, [], none, false, false, none, 0, 0, 0, 0, false⟩

/-- A building row.  Django model equality is primary-key equality, so the
embedding carries an explicit `id`; list membership of buildings is tested
on `id`.  `free_having` is the optional prerequisite's primary key: the
source guards the access with `hasattr`, which is false exactly when the
foreign key is unset, hence the `Option`. -/
structure Building where
  id : Nat
  kind : String
  effect : Effect
  cost : Cost
  free_having : Option Nat
deriving DecidableEq

/-- A build option row (a building made playable in an age). -/
structure BuildOption where
  id : Nat
  players_needed : Nat
  building : Building
deriving DecidableEq

/-- A city special row for one city+variant, built in `order`. -/
structure CitySpecial where
  order : Nat
  cost : Cost
  effect : Effect
deriving DecidableEq

/-- The item a payment is computed for: either a building or a city
special (the two kinds of values `Player.payment_options` receives). -/
inductive Item where
  | building (b : Building)
  | special (s : CitySpecial)
deriving DecidableEq

/-- Cost attached to an item. -/
def Item.cost : Item → Cost
  | .building b => b.cost
  | .special s => s.cost

/-- Age scoring data (`Age` row): victory and defeat battle scores. -/
structure AgeData where
  victory_score : Int
  defeat_score : Int
deriving DecidableEq

/-! ## The economy module (PaymentSolver)

Modelled from the spec: `evolve/rules/economy.py` is absent from `src/`;
`PaymentOption`, `get_payments` and `can_pay` below follow spec §4.3. -/

/-- Modelled from the spec: a concrete realization of a payment — money
spent locally, and money paid to each neighbor for resources bought there
(`evolve/rules/economy.py` is absent from `src/`).  `PaymentOption()` with
no arguments is the pay-nothing option. -/
structure PaymentOption where
  money : Nat := 0
  trade_left : Nat := 0
  trade_right : Nat := 0
deriving DecidableEq

/-- A production source: a list of `(amount, resource)` alternatives; using
the source yields `amount` units of exactly one alternative resource. -/
abbrev ProdSource := List (Nat × Nat)

/-- All ways of using a list of sources: each source independently is
either unused (`none`) or used for one of its alternatives. -/
def sourceChoices (sources : List ProdSource) : List (List (Option (Nat × Nat))) :=
  sources.foldr
    (fun s acc => ((none :: s.map some).map (fun c => acc.map (fun rest => c :: rest))).flatten)
    [[]]

/-- Units of resource `r` provided by a choice of sources. -/
def providedUnits (choice : List (Option (Nat × Nat))) (r : Nat) : Nat :=
  (choice.filterMap id).foldl (fun acc p => if p.2 = r then acc + p.1 else acc) 0

/-- Money charged for the purchases in a neighbor choice, at the payer's
per-resource trade prices for that neighbor. -/
def purchaseSpend (choice : List (Option (Nat × Nat))) (price : Nat → Nat) : Nat :=
  (choice.filterMap id).foldl (fun acc p => acc + p.1 * price p.2) 0

/-- True if every purchase in the choice buys a resource actually named by
the cost (resources are bought per required unit, never speculatively). -/
def buysRequiredOnly (choice : List (Option (Nat × Nat))) (cost : Cost) : Bool :=
  (choice.filterMap id).all (fun p => cost.lines.any (fun ln => ln.2 = p.2))

/-- True if local production plus both neighbor purchases cover every
required resource line of the cost. -/
def coversCost (cost : Cost) (lc lb rb : List (Option (Nat × Nat))) : Bool :=
  cost.lines.all (fun ln =>
    ln.1 ≤ providedUnits lc ln.2 + providedUnits lb ln.2 + providedUnits rb ln.2)

/-- Modelled from the spec: `evolve.rules.economy.get_payments` is absent
from `src/`.  Per spec §4.3, it enumerates the feasible payment plans for
`cost` given the payer's `money`, own free production sources, and each
neighbor's tradeable resources with the payer's per-resource trade prices:
each required unit is covered by an unused local source, or bought from a
neighbor at that price; the cost's money component is paid directly; a
plan is kept when it covers every required unit without exceeding the
available money. -/
def get_payments (cost : Cost) (money : Nat)
    (localProd : List ProdSource)
    (leftOffers : List ProdSource) (leftPrice : Nat → Nat)
    (rightOffers : List ProdSource) (rightPrice : Nat → Nat) :
    List PaymentOption :=
  (sourceChoices localProd).foldr (fun lc acc =>
    ((sourceChoices leftOffers).foldr (fun lb acc2 =>
      ((sourceChoices rightOffers).filterMap (fun rb =>
        let spendL := purchaseSpend lb leftPrice
        let spendR := purchaseSpend rb rightPrice
        if coversCost cost lc lb rb
            && buysRequiredOnly lb cost && buysRequiredOnly rb cost
            && cost.money + spendL + spendR ≤ money then
          some ⟨cost.money, spendL, spendR⟩
        else none)) ++ acc2) []) ++ acc) []

/-- Modelled from the spec: `evolve.rules.economy.can_pay` is absent from
`src/`.  Per spec §4.3 it selects, from the enumerated feasible options,
one whose trade amounts exactly match the declared `(trade_left,
trade_right)`, or signals infeasibility. -/
def can_pay (options : List PaymentOption) (tl tr : Nat) : Option PaymentOption :=
  options.find? (fun o => o.trade_left == tl && o.trade_right == tr)

/-! ## Player state and methods (`evolve/game/models.py`, class `Player`) -/

/-- Player state.  `citySpecials` is the catalog's ordered special list for
the player's city+variant; `cityResource` the city's basic resource;
`free_used_ages` the ages in which the free-building ability was spent. -/
structure Player where
  money : Nat
  specials_built : Nat
  buildings : List Building
  cityResource : Nat
  citySpecials : List CitySpecial
  free_used_ages : List Nat
  current_options : List BuildOption
  action : String
  option_picked : Option BuildOption
  trade_left : Nat
  trade_right : Nat
deriving DecidableEq

/-- Direction towards a neighbor (the `'l'` / `'r'` codes). -/
inductive Dir where
  | l
  | r
deriving DecidableEq

namespace Player

/-- `Player.active_effects`: effects of the city specials with order below
`specials_built`, followed by the effects of the owned buildings. -/
def active_effects (p : Player) : List Effect :=
  (p.citySpecials.filter (fun s => s.order < p.specials_built)).map (·.effect)
    ++ p.buildings.map (·.effect)

/-- `Player.count`: number of owned buildings of a given kind. -/
def count (p : Player) (kind : String) : Nat :=
  (p.buildings.filter (fun b => b.kind = kind)).length

/-- `Player.local_production`: the city's basic resource, then the
production bag of every active effect that has one. -/
def local_production (p : Player) : List ProdSource :=
  [(1, p.cityResource)] :: (p.active_effects).filterMap (fun e => e.production.map (·.lines))

/-- The building kinds whose production neighbors may buy.  `TRADEABLE` is
imported by the game models but absent from `src/evolve/rules/models.py`;
modelled from the spec (§3: trade concerns resources, i.e. the basic and
complex resource kinds). -/
def TRADEABLE : List String := ["bas", "cpx"]

/-- `Player.tradeable_resources`: the city's basic resource, then the
production of every owned building of a tradeable kind. -/
def tradeable_resources (p : Player) : List ProdSource :=
  [(1, p.cityResource)] ::
    (p.buildings.filter (fun b => TRADEABLE.contains b.kind)).filterMap
      (fun b => b.effect.production.map (·.lines))

/-- `Player.trade_costs`: per-resource money cost of buying from the
neighbor in direction `d`, as a function; the default price `dtc`
(`constants.DEFAULT_TRADE_COST`, constants module absent from `src/`) is
min-folded with the trade price of every active effect trading in `d` that
lists the resource. -/
def trade_costs (dtc : Nat) (p : Player) (d : Dir) : Nat → Nat :=
  fun r =>
    p.active_effects.foldl
      (fun acc e =>
        if (match d with | .l => e.left_trade | .r => e.right_trade) then
          match e.trade with
          | some t => if t.lines.any (fun ln => ln.2 = r) then min acc t.money else acc
          | none => acc
        else acc)
      dtc

/-- `Player.next_special`: the unbuilt special of least order (the catalog
guarantees orders are unique per city+variant), `none` if all built. -/
def next_special (p : Player) : Option CitySpecial :=
  (p.citySpecials.filter (fun s => p.specials_built ≤ s.order)).foldl
    (fun acc s =>
      match acc with
      | none => some s
      | some a => if s.order < a.order then some s else some a)
    none

/-- `Player.payment_options`: an already-owned building cannot be bought
(empty list); a building whose set `free_having` prerequisite is owned
yields exactly the pay-nothing option; otherwise the payment solver runs
on the item's cost.  Ownership and the prerequisite test are Django
primary-key membership, so a `CitySpecial` item never matches either
building check. -/
def payment_options (dtc : Nat) (p leftP rightP : Player) (item : Item) :
    List PaymentOption :=
  let generic := get_payments item.cost p.money p.local_production
    leftP.tradeable_resources (p.trade_costs dtc .l)
    rightP.tradeable_resources (p.trade_costs dtc .r)
  match item with
  | .building b =>
    if p.buildings.any (fun ob => ob.id = b.id) then []
    else
      match b.free_having with
      | some fh =>
        if p.buildings.any (fun ob => ob.id = fh) then [{}] else generic
      | none => generic
  | .special _ => generic

/-- `Player.can_build_special`: a next special exists and has at least one
feasible payment (and the game has started). -/
def can_build_special (dtc : Nat) (started : Bool) (p leftP rightP : Player) : Bool :=
  started &&
    match p.next_special with
    | none => false
    | some s => !(p.payment_options dtc leftP rightP (.special s)).isEmpty

/-- `Player.can_build_free`: the source returns `False` early when the game
is not started or no active effect grants `free_building`; after that it
reads the bare, undefined name `special_free_building_ages_used`, raising
`NameError` — modelled as `none`. -/
def can_build_free (started : Bool) (p : Player) : Option Bool :=
  if !started then some false
  else if !(p.active_effects.any (·.free_building)) then some false
  else none

/-- `Player.military`: the source aggregates `Sum('military')` over the
active effects, which yields a one-key dict whose value is `None` for an
empty effect set and the sum otherwise; modelled as the optional sum. -/
def militaryAgg (p : Player) : Option Nat :=
  if p.active_effects.isEmpty then none
  else some ((p.active_effects.map (·.military)).sum)

/-- Military power in the sense of the docstring of `Player.military` and
of spec §3: the sum of the military powers of the active effects. -/
def military_power (p : Player) : Nat :=
  (p.active_effects.map (·.military)).sum

end Player

/-- `Effect.money(owner, left, right)`: instantaneous money produced by an
effect.  Modelled from the spec (§6) and `src/evolve/rules/tests.py`
(`EffectTest`): flat production money, plus per-building multipliers over
the counted kind, plus per-special multipliers; the method itself is
absent from `src/evolve/rules/models.py`. -/
def Effect.money (e : Effect) (own leftP rightP : Player) : Nat :=
  (match e.production with | some c => c.money | none => 0)
    + (match e.kind_payed with
       | some k =>
         e.money_per_neighbor_building * (leftP.count k + rightP.count k)
           + e.money_per_local_building * own.count k
       | none => 0)
    + e.money_per_neighbor_special * (leftP.specials_built + rightP.specials_built)
    + e.money_per_local_special * own.specials_built

namespace Player

/-- The four action codes of `Player.ACTIONS`. -/
def ACTIONS : List String := ["build", "free", "sell", "spec"]

/-- Python equality between a `BuildOption` model instance and one of the
action string constants: always false, the operands having different
types (Django model `__eq__` only equates rows of the same model). -/
def optionEqActionStr (_o : BuildOption) (_s : String) : Bool := false

/-- Sequencing of `assert` statements: a failed or crashing earlier assert
short-circuits the rest (`some true` = passed, `some false` =
AssertionError, `none` = other exception). -/
def assertSeq (a rest : Option Bool) : Option Bool :=
  match a with
  | some true => rest
  | x => x

/-- `assert a or b` with Python short-circuit: `b` (which may itself
raise) is only evaluated when `a` is falsy. -/
def assertOrElse (a : Bool) (b : Option Bool) : Option Bool :=
  if a then some true else b

/-- The assert chain of `Player.play`, exactly as written in the source:
the three action-specific guards compare `option` — a `BuildOption`
instance — against the action string constants, so each left operand of
`or` is true and the specific check on its right is never evaluated. -/
def play_checks (dtc : Nat) (started : Bool) (p leftP rightP : Player)
    (action : String) (option : BuildOption) (tl tr : Nat) : Option Bool :=
  assertSeq (some (ACTIONS.contains action)) <|
  assertSeq (some (p.current_options.any (fun o => o.id = option.id))) <|
  assertSeq (assertOrElse (!optionEqActionStr option "free") (can_build_free started p)) <|
  assertSeq (assertOrElse (!optionEqActionStr option "spec")
    (some (can_build_special dtc started p leftP rightP))) <|
  assertOrElse (!optionEqActionStr option "build")
    (some (can_pay (p.payment_options dtc leftP rightP (.building option.building)) tl tr).isSome)

/-- `Player.play`: when every assert passes, record the decision (action,
picked option, declared trades); an assert failure or exception leaves the
player unchanged (`none`).  The subsequent `turn_check` is a game-level
step, modelled separately. -/
def play (dtc : Nat) (started : Bool) (p leftP rightP : Player)
    (action : String) (option : BuildOption) (tl tr : Nat) : Option Player :=
  match play_checks dtc started p leftP rightP action option tl tr with
  | some true =>
    some { p with action := action, option_picked := some option,
                  trade_left := tl, trade_right := tr }
  | _ => none

/-- Django m2m `add`: append the row unless a row with its primary key is
already present. -/
def addBuilding (bs : List Building) (b : Building) : List Building :=
  if bs.any (fun ob => ob.id = b.id) then bs else bs ++ [b]

/-- `Player.pre_apply_action`: for Build the payment item is the picked
option's building, for FreeBuild it is `next_special()`; the matching
payment for the declared trades is resolved, its money component deducted,
and the picked option's building added.  `none` models the exceptions: an
empty action, a missing picked option or next special, or no matching
payment (the failing `assert payment is not None`).  The returned player
is the method's effect on its instance; the source never calls `save()`
here, so of these mutations only the m2m `buildings.add` actually reaches
the database. -/
def pre_apply_action (dtc : Nat) (p leftP rightP : Player) : Option Player :=
  if p.action = "" then none
  else if p.action = "build" ∨ p.action = "free" then
    match p.option_picked with
    | none => none
    | some opt =>
      let itemOpt : Option Item :=
        if p.action = "build" then some (.building opt.building)
        else p.next_special.map Item.special
      match itemOpt with
      | none => none
      | some item =>
        match can_pay (p.payment_options dtc leftP rightP item) p.trade_left p.trade_right with
        | none => none
        | some payment =>
          some { p with money := p.money - payment.money,
                        buildings := addBuilding p.buildings opt.building }
  else some p

/-- Result of `Player.apply_action`: the updated player and neighbors, and
the options newly sent to the game's discard pile. -/
structure ApplyResult where
  self : Player
  leftP : Player
  rightP : Player
  discarded : List BuildOption
deriving DecidableEq

/-- `Player.apply_action` (`sellValue` is `constants.SELL_VALUE`, constants
module absent from `src/`).  Sell discards and credits the sale value;
Build and SpecialBuild settle the declared trades, credit the built item's
effect money and, for SpecialBuild, advance `specials_built`; FreeBuild
first re-asserts `can_build_free`, which either fails (no capability) or
raises `NameError` on the bare name `special_free_building_ages_used`, so
the branch never completes (`none`).  In the completing branches the
picked option is removed from the hand.  The trade credits are applied to
the neighbor states as the statements write them; in the source each
`left_player()`/`right_player()` call loads a fresh ORM copy, so those
credits are in fact lost at the database level — no claim depends on the
neighbor rows after settlement. -/
def apply_action (dtc sellValue : Nat) (started : Bool) (p leftP rightP : Player) :
    Option ApplyResult :=
  if p.action = "" then none
  else
    match p.option_picked with
    | none => none
    | some opt =>
      let dropPicked := fun (q : Player) =>
        { q with current_options := q.current_options.filter (fun o => o.id ≠ opt.id) }
      if p.action = "sell" then
        some ⟨dropPicked { p with money := p.money + sellValue }, leftP, rightP, [opt]⟩
      else if p.action = "build" then
        let l2 := { leftP with money := leftP.money + p.trade_left }
        let r2 := { rightP with money := rightP.money + p.trade_right }
        let p2 := { p with money := p.money - p.trade_left - p.trade_right }
        let p3 := { p2 with money := p2.money + opt.building.effect.money p2 l2 r2 }
        some ⟨dropPicked p3, l2, r2, []⟩
      else if p.action = "free" then
        match can_build_free started p with
        | some true => none -- were the assert to pass, the next source line reads the same bare name
        | _ => none -- failed assert, or NameError raised inside can_build_free
      else if p.action = "spec" then
        if (can_build_special dtc started p leftP rightP) = false then none
        else
          match p.next_special with
          | none => none
          | some special =>
            let l2 := { leftP with money := leftP.money + p.trade_left }
            let r2 := { rightP with money := rightP.money + p.trade_right }
            let p2 := { p with money := p.money - p.trade_left - p.trade_right }
            let p3 := { p2 with money := p2.money + special.effect.money p2 l2 r2,
                                specials_built := special.order + 1 }
            some ⟨dropPicked p3, l2, r2, []⟩
      else none

end Player

/-! ## Science scoring (`Player.science_score`) -/

/-- Python's `min` over the fields of the science count tuple (the count
tuples handled below always have one entry per catalog science). -/
def pyMin : List Nat → Nat
  | [] => 0
  | x :: xs => xs.foldl min x

/-- The science formula of the source:
`min(counts) * SCIENCE_SCORE_PER_GROUP + sum of squared counts`, `g` being
the constant (constants module absent from `src/`). -/
def scienceValue (g : Nat) (v : List Nat) : Nat :=
  pyMin v * g + (v.map (fun a => a * a)).sum

/-- `b._replace(science += 1)`: increment coordinate `i` of a count
vector. -/
def incAt (v : List Nat) (i : Nat) : List Nat :=
  v.set i (v.getD i 0 + 1)

/-- The set of reachable science count vectors over `k` catalog sciences:
start from the zero vector; for each effect's menu, every reachable vector
is replaced by its increments at each offered science (the Python
set-of-namedtuples loop). -/
def scienceCombos (k : Nat) (options : List (List Nat)) : Finset (List Nat) :=
  options.foldl (fun old o => old.biUnion (fun b => (o.map (incAt b)).toFinset))
    {List.replicate k 0}

/-- `Player.science_score` on the list of science menus of the active
effects: the maximum of the formula over the reachable count vectors
(the source folds `result = max(result, value)` from `0`). -/
def science_score (g k : Nat) (options : List (List Nat)) : Nat :=
  (scienceCombos k options).sup (scienceValue g)

/-- The science menus the source extracts:
`[e.sciences.all() for e in active_effects() if e.sciences.count()]`. -/
def Player.science_options (p : Player) : List (List Nat) :=
  (p.active_effects.filter (fun e => !e.sciences.isEmpty)).map (·.sciences)

/-- All assignments choosing one science from each menu (the reference
notion the claim compares the reachable-vector iteration against). -/
def menuProd (menus : List (List Nat)) : List (List Nat) :=
  menus.foldr (fun m acc => (m.map (fun c => acc.map (fun rest => c :: rest))).flatten) [[]]

/-- Count vector of one assignment. -/
def countVec (k : Nat) (choices : List Nat) : List Nat :=
  choices.foldl incAt (List.replicate k 0)

/-- Maximum of a list of naturals (0 for the empty list). -/
def listMax (l : List Nat) : Nat := l.foldr max 0

/-! ## Dealing (`Game.shuffle`) -/

/-- The building kind code of personalities (`KINDS` in the rules models;
the `PERSONALITY` name itself is imported by the game models but the
binding is absent from `src/`). -/
def PERSONALITY : String := "per"

/-- Python slice assignment `l[k:] = v` for a possibly negative `k`. -/
def pySliceTailSet {α : Type} (l : List α) (k : Int) (v : List α) : List α :=
  l.take (if k < 0 then ((l.length : Int) + k).toNat else k.toNat) ++ v

/-- The pool construction of `Game.shuffle`, as a function of the shuffled
eligible non-personality options and personality options (`order_by('?')`
is modelled by quantifying over the input order): fail when the two pools
together cannot fill every hand; clip the personality count; truncate the
personalities, splice them over the tail of the options, and return the
pool — `none` also models the `assert len(options) == required_options`
failing.  `handSize` is `constants.INITIAL_OPTIONS` (constants module
absent from `src/`). -/
def shuffle_pool (handSize n : Nat) (options pers : List BuildOption) :
    Option (List BuildOption) :=
  let required := n * handSize
  if options.length + pers.length < required then none
  else
    let required_personalities : Int := (required : Int) - options.length
    let recommended : Int := 2 + n
    let actual : Int := min (max recommended required_personalities) (pers.length : Int)
    let pers2 := pers.take actual.toNat
    let pool := pySliceTailSet options ((required : Int) - pers2.length) pers2
    if pool.length = required then some pool else none

/-- Dealing loop of `Game.shuffle`: player `i` (in ring order) receives
the next `handSize` options of the pool. -/
def deal_hands (handSize n : Nat) (pool : List BuildOption) : List (List BuildOption) :=
  (List.range n).map (fun i => (pool.drop (i * handSize)).take handSize)

/-- Number of personality options in a pool. -/
def countPersonality (pool : List BuildOption) : Nat :=
  pool.countP (fun o => o.building.kind = PERSONALITY)

/-! ## Hand rotation (`Game.end_of_turn`) -/

/-- The rotation of `Game.end_of_turn`: with direction `'l'` the list of
hands (in ring order) becomes `opts[1:] + opts[:1]`, otherwise
`opts[-1:] + opts[:-1]`. -/
def rotate_options {α : Type} (d : Dir) (hands : List α) : List α :=
  match d with
  | .l => hands.drop 1 ++ hands.take 1
  | .r => hands.drop (hands.length - 1) ++ hands.take (hands.length - 1)

/-! ## Battles (`Game.end_of_age`, `BattleResult`) -/

/-- Python 2 ordering on the two `aggregate(Sum('military'))` results:
both are one-key dicts with the same key, so the comparison falls through
to the values, where `None` orders below every integer. -/
def aggGt : Option Nat → Option Nat → Bool
  | some x, some y => decide (y < x)
  | some _, none => true
  | none, _ => false

/-- A battle token: the neighbor direction and `'v'`/`'d'`. -/
structure BattleResult where
  direction : Dir
  result : Char
deriving DecidableEq

/-- `BattleResult.score`: the recording age's victory score for a victory,
its defeat score otherwise. -/
def BattleResult.score (age : AgeData) (b : BattleResult) : Int :=
  if b.result = 'v' then age.victory_score else age.defeat_score

/-- The battle loop of `Game.end_of_age` for one player: one token per
neighbor whose `military()` aggregate differs, `'v'` when the player's
aggregate compares greater. -/
def end_of_age_battles (p leftP rightP : Player) : List BattleResult :=
  [(leftP, Dir.l), (rightP, Dir.r)].filterMap (fun nb =>
    if p.militaryAgg ≠ nb.1.militaryAgg then
      some ⟨nb.2, if aggGt p.militaryAgg nb.1.militaryAgg then 'v' else 'd'⟩
    else none)

/-! ## Game setup (`Game.start` / `Game.shuffle`) -/

/-- The game fields `Game.start` and `Game.shuffle` touch; the ring of
players is carried as the list of their hands (ages indexed by order, 0 =
`Age.first()`). -/
structure GameTable where
  started : Bool
  finished : Bool
  ageIdx : Nat
  turn : Nat
  discards : List BuildOption
  hands : List (List BuildOption)
deriving DecidableEq

/-- `Game.is_startable`: not yet started and at least
`constants.MINIMUM_PLAYERS` players seated. -/
def GameTable.is_startable (minPlayers : Nat) (g : GameTable) : Bool :=
  !g.started && decide (minPlayers ≤ g.hands.length)

/-- `Game.shuffle` on eligible option lists already filtered for the
current age and player count: an `.error` is an escaped exception
(`BuildOption.DoesNotExist` on an insufficient catalog, or a failing
assert), carrying the state as already persisted at that point. -/
def GameTable.shuffleDeal (handSize : Nat) (g : GameTable)
    (options pers : List BuildOption) : Except GameTable GameTable :=
  if !(g.started && !g.finished) then .error g
  else
    match shuffle_pool handSize g.hands.length options pers with
    | none => .error g
    | some pool =>
      if g.hands.all List.isEmpty then
        .ok { g with hands := deal_hands handSize g.hands.length pool }
      else .error g

/-- `Game.start`: after the asserts pass, `started` is set **and saved**
before the deal, so a deal failure escapes with `started = true` already
persisted. -/
def GameTable.start (minPlayers handSize : Nat) (g : GameTable)
    (options pers : List BuildOption) : Except GameTable GameTable :=
  if !(g.is_startable minPlayers) || g.finished || g.ageIdx != 0
      || !g.discards.isEmpty || g.turn != 1 then .error g
  else
    GameTable.shuffleDeal handSize { g with started := true } options pers

/-! ## The age/turn state machine (`Game.start` / `end_of_turn` /
`end_of_age`), restricted to the flag and counter fields the turn logic
mutates. -/

/-- Flag-and-counter state of a game. -/
structure GState where
  started : Bool
  finished : Bool
  turn : Nat
  ageIdx : Nat
deriving DecidableEq

/-- A fresh game: not started, first age, turn 1. -/
def GState.init : GState := ⟨false, false, 1, 0⟩

/-- `Game.end_of_age` on flags and counters (`numAges` ages exist): when a
next age exists, advance and reset the turn to 1; otherwise mark finished,
leaving the turn counter untouched. -/
def end_of_age_state (numAges : Nat) (s : GState) : GState :=
  if s.ageIdx + 1 < numAges then { s with ageIdx := s.ageIdx + 1, turn := 1 }
  else { s with finished := true }

/-- `Game.end_of_turn` on flags and counters (`tc` is
`constants.TURN_COUNT`): increment the turn, and fire `end_of_age` when it
exceeds `tc`. -/
def end_of_turn_state (tc numAges : Nat) (s : GState) : GState :=
  let s1 := { s with turn := s.turn + 1 }
  if tc < s1.turn then end_of_age_state numAges s1 else s1

/-- Completed operations on a game's flag state: `Game.start` (its asserts
as preconditions), and a turn resolution, which requires a started,
unfinished game (every submitted decision passed `can_play`). -/
inductive GStep (tc numAges : Nat) : GState → GState → Prop where
  | start (s : GState) : s.started = false → s.finished = false → s.turn = 1 →
      s.ageIdx = 0 → GStep tc numAges s { s with started := true }
  | resolve (s : GState) : s.started = true → s.finished = false →
      GStep tc numAges s (end_of_turn_state tc numAges s)

/-- States reachable from a fresh game. -/
inductive GReach (tc numAges : Nat) : GState → Prop where
  | init : GReach tc numAges GState.init
  | step {s t : GState} : GReach tc numAges s → GStep tc numAges s t →
      GReach tc numAges t

/-! ## Joining (`Game.join`, `Player.Meta`) -/

/-- Join-phase state of one game: its players as `(user, city)` pairs. -/
structure JoinState where
  started : Bool
  players : List (Nat × Nat)
deriving DecidableEq

/-- A fresh game: no players, not started. -/
def JoinState.init : JoinState := ⟨false, []⟩

/-- Completed join-phase operations, against the catalog `cities`:
`Game.join` requires `is_joinable` (game not started, an available city
exists) and picks the new player's city among the cities no player of the
game holds; the row save succeeds only under the `unique_together`
constraints of `Player.Meta`, in particular `(user, game)`, so a join by
an already-seated user raises and adds nothing.  Starting the game freezes
the player list. -/
inductive JStep (cities : List Nat) : JoinState → JoinState → Prop where
  | join (s : JoinState) (u c : Nat) :
      s.started = false →
      c ∈ cities → c ∉ s.players.map Prod.snd →
      u ∉ s.players.map Prod.fst →
      JStep cities s { s with players := (u, c) :: s.players }
  | startGame (s : JoinState) : s.started = false →
      JStep cities s { s with started := true }

/-- Join-phase states reachable from a fresh game. -/
inductive JReach (cities : List Nat) : JoinState → Prop where
  | init : JReach cities JoinState.init
  | step {s t : JoinState} : JReach cities s → JStep cities s t → JReach cities t

/-! ## Concrete fixtures

Small catalog rows and players used to evaluate the embedded code at
explicit inputs. -/

/-- A building with the all-empty effect, a zero cost and no
`free_having` prerequisite. -/
def bld (i : Nat) (kind : String) : Building :=
  ⟨i, kind, Effect.nil, ⟨0, []⟩, none⟩

/-- A build option for a building. -/
def opt (i : Nat) (b : Building) : BuildOption := ⟨i, 3, b⟩

/-- A player owning the given buildings, with money 5 and no specials,
empty hand, no pending decision. -/
def mkPlayer (bs : List Building) : Player :=
  ⟨5, 0, bs, 0, [], [], [], "", none, 0, 0⟩

/-- Five eligible non-personality options. -/
def cOptsC6 : List BuildOption :=
  [opt 1 (bld 1 "civ"), opt 2 (bld 2 "civ"), opt 3 (bld 3 "civ"),
   opt 4 (bld 4 "civ"), opt 5 (bld 5 "civ")]

/-- Three eligible personality options. -/
def cPersC6 : List BuildOption :=
  [opt 6 (bld 6 "per"), opt 7 (bld 7 "per"), opt 8 (bld 8 "per")]

/-- The pool the deal builds from `cOptsC6`/`cPersC6` with 3 players and
hand size 2. -/
def cPoolC6 : List BuildOption :=
  [opt 1 (bld 1 "civ"), opt 2 (bld 2 "civ"), opt 3 (bld 3 "civ"),
   opt 6 (bld 6 "per"), opt 7 (bld 7 "per"), opt 8 (bld 8 "per")]

/-- A building the payer already owns (claim C2). -/
def cB1 : Building := bld 21 "civ"

/-- A costly building that is free when owning `cB1` (claim C2). -/
def cB2 : Building := ⟨22, "civ", Effect.nil, ⟨3, [(1, 0)]⟩, some 21⟩

/-- A city special costing 2 money and nothing else (claim C1). -/
def cSpecial : CitySpecial := ⟨0, ⟨2, []⟩, Effect.nil⟩

/-- The zero-cost building of the picked hand option (claim C1). -/
def cBldFree : Building := bld 31 "civ"

/-- The picked hand option (claims C1 and C3). -/
def cOptFree : BuildOption := opt 32 cBldFree

/-- A player whose pending action is FreeBuild: money 5, next unbuilt
special `cSpecial` (cost 2 money), picked option `cOptFree` (zero-cost
building), no declared trade (claim C1). -/
def cPlayerFree : Player :=
  ⟨5, 0, [], 0, [cSpecial], [], [cOptFree], "free", some cOptFree, 0, 0⟩

/-- A player holding `cOptFree` with no free-building capability and no
pending decision (claim C3). -/
def cPlayerNoCap : Player :=
  ⟨5, 0, [], 0, [], [], [cOptFree], "", none, 0, 0⟩

/-- An unstarted 3-player game at the first age, turn 1 (claim C4). -/
def cGameUnstarted : GameTable := ⟨false, false, 0, 1, [], [[], [], []]⟩

/-- A player with one building whose effect has military power 0
(claim C8). -/
def cZeroMil : Player := mkPlayer [bld 41 "civ"]

/-! ## Rotation lemmas (claim C7) -/

theorem rotate_options_l_eq_rotate {α : Type} (l : List α) :
    rotate_options Dir.l l = l.rotate 1 := by
  cases l with
  | nil => rfl
  | cons a t =>
    rw [List.rotate_eq_drop_append_take (by simp)]
    rfl

theorem rotate_options_r_eq_rotate {α : Type} (l : List α) :
    rotate_options Dir.r l = l.rotate (l.length - 1) := by
  rw [List.rotate_eq_drop_append_take (Nat.sub_le _ _)]
  rfl

theorem iterate_rotate_options_l {α : Type} (l : List α) (m : Nat) :
    (rotate_options Dir.l)^[m] l = l.rotate m := by
  induction m with
  | zero => simp
  | succ m ih =>
    rw [Function.iterate_succ_apply', ih, rotate_options_l_eq_rotate,
      List.rotate_rotate]

theorem iterate_rotate_options_r {α : Type} (l : List α) (m : Nat) :
    (rotate_options Dir.r)^[m] l = l.rotate (m * (l.length - 1)) := by
  induction m with
  | zero => simp
  | succ m ih =>
    rw [Function.iterate_succ_apply', ih, rotate_options_r_eq_rotate,
      List.length_rotate, List.rotate_rotate, Nat.succ_mul]

/-- C7: at each turn resolution every hand moves one seat — with direction
left, player `i` receives the hand of player `i+1` (each hand goes to its
owner's left neighbor), otherwise player `i` receives the hand of player
`i-1` — and after exactly `n` consecutive rotations in the same age every
hand is back with its original owner. -/
theorem claim_C7 {α : Type} (d : Dir) (n : Nat) (hands : List α)
    (hlen : hands.length = n) (hpos : 0 < n) :
    (rotate_options d)^[n] hands = hands
    ∧ (∀ i, i < n → (rotate_options Dir.l hands)[i]? = hands[(i + 1) % n]?)
    ∧ (∀ i, i < n → (rotate_options Dir.r hands)[i]? = hands[(i + (n - 1)) % n]?) := by
  subst hlen
  refine ⟨?_, ?_, ?_⟩
  · cases d
    · rw [iterate_rotate_options_l, List.rotate_length]
    · rw [iterate_rotate_options_r, ← List.rotate_mod, Nat.mul_mod_right,
        List.rotate_zero]
  · intro i hi
    rw [rotate_options_l_eq_rotate, List.getElem?_rotate hi]
  · intro i hi
    rw [rotate_options_r_eq_rotate, List.getElem?_rotate hi]

/-- Witness for C7 at a concrete 3-player ring with direction right. -/
theorem claim_C7_witness :
    (([10, 20, 30] : List Nat).length = 3 ∧ 0 < 3)
    ∧ ((rotate_options Dir.r)^[3] [10, 20, 30] = [10, 20, 30]
       ∧ (∀ i, i < 3 →
            (rotate_options Dir.l ([10, 20, 30] : List Nat))[i]? =
              [10, 20, 30][(i + 1) % 3]?)
       ∧ (∀ i, i < 3 →
            (rotate_options Dir.r ([10, 20, 30] : List Nat))[i]? =
              [10, 20, 30][(i + (3 - 1)) % 3]?)) :=
  ⟨⟨rfl, by decide⟩, claim_C7 Dir.r 3 [10, 20, 30] rfl (by decide)⟩

/-! ## Science scoring lemmas (claim C5) -/

theorem le_listMax_of_mem {l : List Nat} {a : Nat} (h : a ∈ l) : a ≤ listMax l := by
  induction l with
  | nil => cases h
  | cons b t ih =>
    rcases List.mem_cons.1 h with rfl | ht
    · exact le_max_left _ _
    · exact le_trans (ih ht) (le_max_right _ _)

theorem listMax_le {l : List Nat} {x : Nat} (h : ∀ a ∈ l, a ≤ x) : listMax l ≤ x := by
  induction l with
  | nil => exact Nat.zero_le x
  | cons b t ih =>
    exact max_le (h b (List.mem_cons_self b t)) (ih fun a ha => h a (List.mem_cons_of_mem b ha))

theorem mem_foldl_combos (options : List (List Nat)) (init : Finset (List Nat))
    (v : List Nat) :
    (v ∈ options.foldl (fun old o => old.biUnion (fun b => (o.map (incAt b)).toFinset)) init) ↔
      ∃ b ∈ init, ∃ ch ∈ menuProd options, ch.foldl incAt b = v := by
  induction options generalizing init with
  | nil => simp [menuProd]
  | cons o os ih =>
    rw [List.foldl_cons, ih]
    simp only [menuProd, List.foldr_cons, List.mem_flatten, List.mem_map,
      Finset.mem_biUnion, List.mem_toFinset]
    constructor
    · rintro ⟨b, ⟨b0, hb0, c, hc, rfl⟩, ch, hch, rfl⟩
      exact ⟨b0, hb0, c :: ch, ⟨_, ⟨c, hc, rfl⟩, List.mem_map.2 ⟨ch, hch, rfl⟩⟩, rfl⟩
    · rintro ⟨b0, hb0, ch, ⟨_, ⟨c, hc, rfl⟩, hch⟩, rfl⟩
      rcases List.mem_map.1 hch with ⟨ch0, hch0, rfl⟩
      exact ⟨incAt b0 c, ⟨b0, hb0, c, hc, rfl⟩, ch0, hch0, rfl⟩

theorem mem_scienceCombos_iff (k : Nat) (options : List (List Nat)) (v : List Nat) :
    v ∈ scienceCombos k options ↔ ∃ ch ∈ menuProd options, countVec k ch = v := by
  rw [scienceCombos, mem_foldl_combos]
  simp [countVec]

/-- The iterative reachable-vector computation equals the maximum of the
formula over all choice assignments. -/
theorem science_score_eq_listMax (g k : Nat) (options : List (List Nat)) :
    science_score g k options
      = listMax ((menuProd options).map (fun ch => scienceValue g (countVec k ch))) := by
  apply Nat.le_antisymm
  · apply Finset.sup_le
    intro v hv
    rcases (mem_scienceCombos_iff k options v).1 hv with ⟨ch, hch, rfl⟩
    exact le_listMax_of_mem (List.mem_map.2 ⟨ch, hch, rfl⟩)
  · apply listMax_le
    intro a ha
    rcases List.mem_map.1 ha with ⟨ch, hch, rfl⟩
    exact Finset.le_sup ((mem_scienceCombos_iff k options _).2 ⟨ch, hch, rfl⟩)

/-- C5: `science_score` equals the maximum, over all assignments choosing
one offered science per science-producing effect, of
`min(counts) * SCIENCE_SCORE_PER_GROUP + sum of squared counts`; for two
effects offering `{A, B}` and `{B, C}` (sciences `0, 1, 2`) the result is
`4`, reached by picking `B` twice — counts `(0, 2, 0)` — and every other
assignment scores strictly less, for every value of the constant. -/
theorem claim_C5 (g k : Nat) (options : List (List Nat)) :
    science_score g k options
      = listMax ((menuProd options).map (fun ch => scienceValue g (countVec k ch)))
    ∧ science_score g 3 [[0, 1], [1, 2]] = 4
    ∧ countVec 3 [1, 1] = [0, 2, 0]
    ∧ (∀ ch ∈ menuProd [[0, 1], [1, 2]], ch ≠ [1, 1] →
        scienceValue g (countVec 3 ch) < 4)
    ∧ (∀ p : Player, science_score g k p.science_options
        = listMax ((menuProd p.science_options).map
            (fun ch => scienceValue g (countVec k ch)))) := by
  refine ⟨science_score_eq_listMax g k options, ?_, by decide, ?_,
    fun p => science_score_eq_listMax g k p.science_options⟩
  · rw [science_score_eq_listMax]
    simp [menuProd, listMax, scienceValue, countVec, incAt, pyMin]
  · intro ch hch hne
    rw [show menuProd [[0, 1], [1, 2]] = [[0, 1], [0, 2], [1, 1], [1, 2]] from by decide]
      at hch
    simp only [List.mem_cons, List.not_mem_nil, or_false] at hch
    rcases hch with rfl | rfl | rfl | rfl
    · simp [scienceValue, countVec, incAt, pyMin]
    · simp [scienceValue, countVec, incAt, pyMin]
    · exact absurd rfl hne
    · simp [scienceValue, countVec, incAt, pyMin]

/-! ## Dealing lemmas (claim C6) -/

theorem getD_deal_hands (handSize n : Nat) (pool : List BuildOption) {i : Nat}
    (hi : i < n) :
    (deal_hands handSize n pool).getD i [] = (pool.drop (i * handSize)).take handSize := by
  rw [deal_hands, List.getD_eq_getElem?_getD, List.getElem?_map, List.getElem?_range hi]
  rfl

/-- C6: a successful deal builds a pool of exactly `n * INITIAL_OPTIONS`
options (whatever the final reshuffle permutation), every dealt hand has
size `INITIAL_OPTIONS`, and the number of personality options used is
`clip(n+2, required_personalities, available_personalities)` — within that
interval, and equal to `n+2` whenever `n+2` lies inside it. -/
theorem claim_C6 (handSize n : Nat) (options pers pool pool2 : List BuildOption)
    (hO : ∀ o ∈ options, o.building.kind ≠ PERSONALITY)
    (hP : ∀ o ∈ pers, o.building.kind = PERSONALITY)
    (hS : shuffle_pool handSize n options pers = some pool)
    (hperm : pool2.Perm pool) :
    pool2.length = n * handSize
    ∧ (deal_hands handSize n pool2).length = n
    ∧ (∀ i, i < n → ((deal_hands handSize n pool2).getD i []).length = handSize)
    ∧ ((countPersonality pool2 : Int)
        = min (max (2 + (n : Int)) ((n * handSize : Int) - options.length))
            (pers.length : Int))
    ∧ (n * handSize : Int) - options.length ≤ (countPersonality pool2 : Int)
    ∧ (countPersonality pool2 : Int) ≤ (pers.length : Int)
    ∧ (((n * handSize : Int) - options.length ≤ 2 + (n : Int)
          ∧ 2 + (n : Int) ≤ (pers.length : Int))
        → (countPersonality pool2 : Int) = 2 + (n : Int)) := by
  simp only [shuffle_pool] at hS
  split at hS
  · exact absurd hS (by simp)
  · rename_i hEnough
    split at hS
    · rename_i hLen
      obtain rfl : _ = pool := Option.some.inj hS
      have hlen2 : pool2.length = n * handSize := hperm.length_eq.trans hLen
      have hcount : countPersonality pool2
          = (pers.take (min (max (2 + (n : Int)) (((n * handSize : Nat) : Int) - options.length))
              (pers.length : Int)).toNat).length := by
        rw [countPersonality, hperm.countP_eq, pySliceTailSet, List.countP_append,
          List.countP_eq_zero.2 (fun o ho => by
            simpa using hO o (List.take_subset _ _ ho)),
          List.countP_eq_length.2 (fun o ho => by
            simpa using hP o (List.take_subset _ _ ho)),
          Nat.zero_add]
      rw [List.length_take] at hcount
      refine ⟨hlen2, by simp [deal_hands], ?_, ?_⟩
      · intro i hi
        rw [getD_deal_hands _ _ _ hi, List.length_take, List.length_drop, hlen2]
        have hmul : (i + 1) * handSize ≤ n * handSize := Nat.mul_le_mul_right _ (by omega)
        have hsm : (i + 1) * handSize = i * handSize + handSize := Nat.succ_mul i handSize
        omega
      · rw [hcount]
        have hEn : n * handSize ≤ options.length + pers.length := by omega
        omega
    · exact absurd hS (by simp)

/-- Witness for C6: three players, hand size 2, five non-personality and
three personality options; the deal keeps 3 personalities
(`clip(3+2, 1, 3) = 3`). -/
theorem claim_C6_witness :
    ((∀ o ∈ cOptsC6, o.building.kind ≠ PERSONALITY)
     ∧ (∀ o ∈ cPersC6, o.building.kind = PERSONALITY)
     ∧ shuffle_pool 2 3 cOptsC6 cPersC6 = some cPoolC6
     ∧ cPoolC6.Perm cPoolC6)
    ∧ (cPoolC6.length = 3 * 2
       ∧ (deal_hands 2 3 cPoolC6).length = 3
       ∧ (∀ i, i < 3 → ((deal_hands 2 3 cPoolC6).getD i []).length = 2)
       ∧ ((countPersonality cPoolC6 : Int)
            = min (max (2 + ((3 : Nat) : Int)) ((3 * 2 : Int) - cOptsC6.length))
                (cPersC6.length : Int))
       ∧ (3 * 2 : Int) - cOptsC6.length ≤ (countPersonality cPoolC6 : Int)
       ∧ (countPersonality cPoolC6 : Int) ≤ (cPersC6.length : Int)
       ∧ (((3 * 2 : Int) - cOptsC6.length ≤ 2 + ((3 : Nat) : Int)
             ∧ 2 + ((3 : Nat) : Int) ≤ (cPersC6.length : Int))
           → (countPersonality cPoolC6 : Int) = 2 + ((3 : Nat) : Int))) :=
  ⟨⟨by decide, by decide, by decide, List.Perm.refl _⟩,
   claim_C6 2 3 cOptsC6 cPersC6 cPoolC6 cPoolC6 (by decide) (by decide)
     (by decide) (List.Perm.refl _)⟩

/-! ## Game start (claim C4) -/

/-- C4 counterexample: starting a startable 3-player game over a catalog
with fewer than `3 * INITIAL_OPTIONS` eligible options (here none at all,
hand size 2) raises the setup error — but the escaping state has
`started = true`, because `Game.start` saves the flag before dealing; the
claim asserts `started` remains false. -/
theorem claim_C4_counterexample :
    ([] : List BuildOption).length + ([] : List BuildOption).length < 3 * 2
    ∧ cGameUnstarted.is_startable 3 = true
    ∧ cGameUnstarted.started = false
    ∧ GameTable.start 3 2 cGameUnstarted [] []
        = .error ⟨true, false, 0, 1, [], [[], [], []]⟩ := by
  refine ⟨by decide, by decide, rfl, rfl⟩

/-- C4 as amended: with an insufficient catalog, `Game.start` fails with
the setup error and no hand is dealt, but the game does **not** remain
unstarted — `started` has already been persisted as `true`; with a
sufficient catalog, start succeeds with `started = true` and `turn = 1`. -/
theorem claim_C4_amended (minPlayers handSize : Nat) (g : GameTable)
    (options pers : List BuildOption)
    (hstartable : g.is_startable minPlayers = true) (hfin : g.finished = false)
    (hage : g.ageIdx = 0) (hdisc : g.discards = []) (hturn : g.turn = 1)
    (hempty : g.hands.all List.isEmpty = true) :
    (options.length + pers.length < g.hands.length * handSize →
      GameTable.start minPlayers handSize g options pers
        = .error { g with started := true })
    ∧ (∀ pool, shuffle_pool handSize g.hands.length options pers = some pool →
        ∃ g2, GameTable.start minPlayers handSize g options pers = .ok g2
          ∧ g2.started = true ∧ g2.turn = 1) := by
  have hcond : (!(g.is_startable minPlayers) || g.finished || g.ageIdx != 0
      || !g.discards.isEmpty || g.turn != 1) = false := by
    simp [hstartable, hfin, hage, hdisc, hturn]
  constructor
  · intro hlt
    have hnone : shuffle_pool handSize g.hands.length options pers = none := by
      rw [shuffle_pool]
      simp [hlt]
    rw [GameTable.start, hcond]
    simp only [Bool.false_eq_true, if_false]
    rw [GameTable.shuffleDeal]
    simp [hfin, hnone]
  · intro pool hpool
    refine ⟨⟨true, g.finished, g.ageIdx, g.turn, g.discards,
              deal_hands handSize g.hands.length pool⟩, ?_, rfl, hturn⟩
    rw [GameTable.start, hcond]
    simp only [Bool.false_eq_true, if_false]
    rw [GameTable.shuffleDeal]
    simp [hfin, hpool, hempty]

/-- Witness for C4 at a concrete startable game and sufficient catalog. -/
theorem claim_C4_witness :
    (cGameUnstarted.is_startable 3 = true ∧ cGameUnstarted.finished = false
     ∧ cGameUnstarted.ageIdx = 0 ∧ cGameUnstarted.discards = []
     ∧ cGameUnstarted.turn = 1 ∧ cGameUnstarted.hands.all List.isEmpty = true)
    ∧ ((cOptsC6.length + cPersC6.length < cGameUnstarted.hands.length * 2 →
        GameTable.start 3 2 cGameUnstarted cOptsC6 cPersC6
          = .error { cGameUnstarted with started := true })
      ∧ (∀ pool, shuffle_pool 2 cGameUnstarted.hands.length cOptsC6 cPersC6 = some pool →
          ∃ g2, GameTable.start 3 2 cGameUnstarted cOptsC6 cPersC6 = .ok g2
            ∧ g2.started = true ∧ g2.turn = 1)) :=
  ⟨⟨by decide, rfl, rfl, rfl, rfl, by decide⟩,
   claim_C4_amended 3 2 cGameUnstarted cOptsC6 cPersC6 (by decide) rfl rfl rfl rfl
     (by decide)⟩

/-! ## Age/turn state machine invariants (claim C9) -/

/-- C9 counterexample: with `TURN_COUNT = 1` and a single age, a reachable
finished state carries `turn = 2 = TURN_COUNT + 1`: the final
`end_of_turn` increments the counter past `TURN_COUNT`, and `end_of_age`
marks the game finished without resetting it, so in the terminal state —
a completed operation — the turn counter is outside `[1, TURN_COUNT]`,
contradicting the claim. -/
theorem claim_C9_counterexample :
    GReach 1 1 ⟨true, true, 2, 0⟩ ∧ ¬((⟨true, true, 2, 0⟩ : GState).turn ≤ 1) := by
  constructor
  · have h1 : GStep 1 1 GState.init ⟨true, false, 1, 0⟩ :=
      GStep.start GState.init rfl rfl rfl rfl
    have h2 : GStep 1 1 ⟨true, false, 1, 0⟩ ⟨true, true, 2, 0⟩ :=
      GStep.resolve ⟨true, false, 1, 0⟩ rfl rfl
    exact GReach.step (GReach.step GReach.init h1) h2
  · decide

/-- The flag/counter invariant is preserved by every completed game
operation. -/
theorem gstep_inv_preserved (tc numAges : Nat) (htc : 1 ≤ tc) {s t : GState}
    (hstep : GStep tc numAges s t)
    (ih : (s.finished = true → s.started = true)
      ∧ (s.finished = false → 1 ≤ s.turn ∧ s.turn ≤ tc)
      ∧ (s.finished = true → s.turn = tc + 1)) :
    (t.finished = true → t.started = true)
    ∧ (t.finished = false → 1 ≤ t.turn ∧ t.turn ≤ tc)
    ∧ (t.finished = true → t.turn = tc + 1) := by
  obtain ⟨ih1, ih2, ih3⟩ := ih
  cases hstep with
  | start hns hnf ht ha =>
    refine ⟨fun _ => rfl, fun _ => ?_, fun hf => ?_⟩
    · show 1 ≤ s.turn ∧ s.turn ≤ tc
      omega
    · exact absurd (show s.finished = true from hf) (by simp [hnf])
  | resolve hst hnf =>
    have hb := ih2 hnf
    simp only [end_of_turn_state, end_of_age_state]
    split
    · rename_i hgt
      split
      · rename_i hage
        exact ⟨fun hf => absurd (show s.finished = true from hf) (by simp [hnf]),
          fun _ => ⟨le_refl 1, htc⟩,
          fun hf => absurd (show s.finished = true from hf) (by simp [hnf])⟩
      · rename_i hage
        refine ⟨fun _ => hst, fun hf => absurd (show (true : Bool) = false from hf) (by simp),
          fun _ => ?_⟩
        show s.turn + 1 = tc + 1
        omega
    · rename_i hle
      refine ⟨fun hf => absurd (show s.finished = true from hf) (by simp [hnf]),
        fun _ => ?_,
        fun hf => absurd (show s.finished = true from hf) (by simp [hnf])⟩
      show 1 ≤ s.turn + 1 ∧ s.turn + 1 ≤ tc
      omega

/-- C9 as amended: in every reachable state, `finished` implies `started`;
the turn counter lies in `[1, TURN_COUNT]` in every **unfinished** state;
a finished state instead carries `turn = TURN_COUNT + 1`. -/
theorem claim_C9_amended (tc numAges : Nat) (htc : 1 ≤ tc) (s : GState)
    (h : GReach tc numAges s) :
    (s.finished = true → s.started = true)
    ∧ (s.finished = false → 1 ≤ s.turn ∧ s.turn ≤ tc)
    ∧ (s.finished = true → s.turn = tc + 1) := by
  induction h with
  | init =>
    refine ⟨fun hf => ?_, fun _ => ⟨le_refl 1, htc⟩, fun hf => ?_⟩ <;>
      simp [GState.init] at hf
  | step hr hstep ih => exact gstep_inv_preserved tc numAges htc hstep ih

/-- Witness for C9 (amended) at the initial state with `TURN_COUNT = 2`. -/
theorem claim_C9_witness :
    (1 ≤ 2 ∧ GReach 2 1 GState.init)
    ∧ ((GState.init.finished = true → GState.init.started = true)
       ∧ (GState.init.finished = false → 1 ≤ GState.init.turn ∧ GState.init.turn ≤ 2)
       ∧ (GState.init.finished = true → GState.init.turn = 2 + 1)) :=
  ⟨⟨by decide, GReach.init⟩, claim_C9_amended 2 1 (by decide) GState.init GReach.init⟩

/-! ## Join invariants (claim C10) -/

/-- C10: in every reachable join-phase state, no two players of the game
share a city, every user has at most one player in the game, and once the
game has started no operation changes the player list (joining is
possible only while unstarted). -/
theorem claim_C10 (cities : List Nat) (s : JoinState) (h : JReach cities s) :
    (s.players.map Prod.snd).Nodup
    ∧ (s.players.map Prod.fst).Nodup
    ∧ (s.started = true → ∀ t, JStep cities s t → t.players = s.players) := by
  induction h with
  | init => simp [JoinState.init]
  | step hr hstep ih =>
    obtain ⟨ihc, ihu, _⟩ := ih
    cases hstep with
    | join u c hns hcin hcnot hunot =>
      refine ⟨?_, ?_, fun hst => ?_⟩
      · exact List.nodup_cons.2 ⟨hcnot, ihc⟩
      · exact List.nodup_cons.2 ⟨hunot, ihu⟩
      · exact absurd hst (by simp [hns])
    | startGame hns =>
      refine ⟨ihc, ihu, fun _ t htstep => ?_⟩
      cases htstep with
      | join u c hns2 _ _ _ => exact absurd hns2 (by simp)
      | startGame hns2 => exact absurd hns2 (by simp)

/-- Witness for C10: the state after one join on a two-city catalog. -/
theorem claim_C10_witness :
    JReach [0, 1] ⟨false, [(5, 0)]⟩
    ∧ ((([((5 : Nat), (0 : Nat))]).map Prod.snd).Nodup
       ∧ (([((5 : Nat), (0 : Nat))]).map Prod.fst).Nodup
       ∧ ((false : Bool) = true →
          ∀ t, JStep [0, 1] ⟨false, [(5, 0)]⟩ t → t.players = [(5, 0)])) := by
  have hr : JReach [0, 1] ⟨false, [(5, 0)]⟩ :=
    JReach.step JReach.init (JStep.join _ 5 0 rfl (by decide) (by decide) (by decide))
  exact ⟨hr, claim_C10 [0, 1] ⟨false, [(5, 0)]⟩ hr⟩

/-! ## Payment options degenerate cases (claim C2) -/

/-- C2 counterexample: for a payer who already owns the item, the claim
says `payment_options` returns exactly the single pay-nothing option; the
source instead returns the empty list (the item "can't be bought"). -/
theorem claim_C2_counterexample :
    (mkPlayer [cB1]).buildings.any (fun ob => ob.id = cB1.id) = true
    ∧ Player.payment_options 2 (mkPlayer [cB1]) (mkPlayer []) (mkPlayer [])
        (.building cB1) = []
    ∧ Player.payment_options 2 (mkPlayer [cB1]) (mkPlayer []) (mkPlayer [])
        (.building cB1) ≠ [({} : PaymentOption)] := by decide

/-- C2 as amended: a **building** the payer already owns yields the empty
option list (no feasible option, not the pay-nothing option); a building
not owned whose set `free_having` prerequisite is owned yields exactly the
single pay-nothing option; a city special never matches either degenerate
branch and always goes to the general solver. -/
theorem claim_C2_amended (dtc : Nat) (p leftP rightP : Player) (b : Building) :
    (p.buildings.any (fun ob => ob.id = b.id) = true →
      p.payment_options dtc leftP rightP (.building b) = [])
    ∧ (p.buildings.any (fun ob => ob.id = b.id) = false →
        ∀ fh, b.free_having = some fh →
          p.buildings.any (fun ob => ob.id = fh) = true →
          p.payment_options dtc leftP rightP (.building b) = [{}])
    ∧ (∀ s : CitySpecial, p.payment_options dtc leftP rightP (.special s)
        = get_payments s.cost p.money p.local_production
            leftP.tradeable_resources (p.trade_costs dtc .l)
            rightP.tradeable_resources (p.trade_costs dtc .r)) := by
  refine ⟨?_, ?_, fun s => rfl⟩
  · intro hown
    simp [Player.payment_options, hown]
  · intro hnot fh hfh hpre
    simp [Player.payment_options, hnot, hfh, hpre]

/-- Witness for C2 (amended) on a player owning `cB1`: the owned item
`cB1` gets no option; `cB2`, free when having `cB1`, gets exactly the
pay-nothing option. -/
theorem claim_C2_witness :
    ((mkPlayer [cB1]).buildings.any (fun ob => ob.id = cB1.id) = true
     ∧ Player.payment_options 2 (mkPlayer [cB1]) (mkPlayer []) (mkPlayer [])
         (.building cB1) = [])
    ∧ ((mkPlayer [cB1]).buildings.any (fun ob => ob.id = cB2.id) = false
       ∧ cB2.free_having = some 21
       ∧ Player.payment_options 2 (mkPlayer [cB1]) (mkPlayer []) (mkPlayer [])
           (.building cB2) = [{}]) :=
  ⟨⟨by decide,
    (claim_C2_amended 2 (mkPlayer [cB1]) (mkPlayer []) (mkPlayer []) cB1).1 (by decide)⟩,
   ⟨by decide, rfl,
    (claim_C2_amended 2 (mkPlayer [cB1]) (mkPlayer []) (mkPlayer []) cB2).2.1
      (by decide) 21 rfl (by decide)⟩⟩

/-! ## FreeBuild resolution (claim C1) -/

/-- C1, evaluated at the failing input: a player whose pending action is
FreeBuild, whose picked option's building costs nothing, and whose next
unbuilt city special costs 2 money.  `pre_apply_action` resolves the
payment for the **next special** (not the picked building) and deducts its
2 money — the claim says no money is deducted and the pre-computation
refers to the picked building — and `apply_action` then raises before the
free-build ability is ever marked used for the age. -/
theorem claim_C1_bug :
    cPlayerFree.action = "free"
    ∧ cPlayerFree.next_special = some cSpecial
    ∧ cSpecial.cost.money = 2
    ∧ cPlayerFree.option_picked = some cOptFree
    ∧ cOptFree.building.cost.money = 0
    ∧ Player.pre_apply_action 2 cPlayerFree (mkPlayer []) (mkPlayer [])
        = some { cPlayerFree with money := 3, buildings := [cBldFree] }
    ∧ Player.apply_action 2 3 true cPlayerFree (mkPlayer []) (mkPlayer []) = none := by
  decide

/-! ## `play` validation (claim C3) -/

/-- C3, evaluated at the failing input: a started game and a player with
no free-build capability (`can_build_free` is `False`); the submission
`play('free', option-in-hand, 0, 0)` is nonetheless **accepted** and the
decision recorded, because the source's asserts compare `option` — a
`BuildOption` instance — with the action string constants, a comparison
that is always false-y inequality, short-circuiting every action-specific
check; the comparison the docstring intends (on `action`) would have
evaluated `can_build_free` and rejected the call. -/
theorem claim_C3_bug :
    Player.can_build_free true cPlayerNoCap = some false
    ∧ Player.optionEqActionStr cOptFree "free" = false
    ∧ Player.play_checks 2 true cPlayerNoCap (mkPlayer []) (mkPlayer [])
        "free" cOptFree 0 0 = some true
    ∧ Player.play 2 true cPlayerNoCap (mkPlayer []) (mkPlayer []) "free" cOptFree 0 0
        = some { cPlayerNoCap with action := "free", option_picked := some cOptFree, trade_left := 0, trade_right := 0 }
    ∧ Player.assertOrElse (decide (("free" : String) ≠ "free"))
        (Player.can_build_free true cPlayerNoCap) = some false := by
  decide

/-! ## Battles (claim C8) -/

/-- C8, evaluated at the failing input: a player with no active effects
and a neighbor with one active effect of military power 0 have **equal**
military power (both sums are 0), yet `end_of_age` creates battle tokens
for the pair, because `Player.military` returns the raw
`aggregate(Sum('military'))` result — `None` for the effect-less player
versus `0` — instead of the documented sum; the effect-less player is
even recorded as defeated (`None` orders below `0`), scoring the age's
defeat score. -/
theorem claim_C8_bug :
    Player.military_power (mkPlayer []) = Player.military_power cZeroMil
    ∧ Player.militaryAgg (mkPlayer []) = none
    ∧ Player.militaryAgg cZeroMil = some 0
    ∧ end_of_age_battles (mkPlayer []) cZeroMil cZeroMil
        = [⟨Dir.l, 'd'⟩, ⟨Dir.r, 'd'⟩]
    ∧ (∀ age : AgeData, BattleResult.score age ⟨Dir.l, 'd'⟩ = age.defeat_score) := by
  refine ⟨by decide, by decide, by decide, by decide, fun age => rfl⟩

end Evolve
